import Mathlib

/-!
Verification of the `slab_allocator` crate: a segregated-fit heap built from
seven slab caches (block sizes 64 … 4096) and a linked-list allocator for
large requests.  The definitions below are a shallow embedding of
`src/lib.rs` and `src/slab.rs`; addresses and sizes are modelled as `Nat`.
-/

set_option autoImplicit false

namespace SlabAllocator

/-- `core::alloc::Layout`: a request is a pair `(size, align)`. -/
structure Layout where
  size : Nat
  align : Nat
deriving DecidableEq, Repr

/-- The error type of `slab.rs` (`AllocErr::Exhausted { request }`) together with
the unit-like `core::alloc::AllocError` that `Heap::allocate` maps the
linked-list allocator's failure to. -/
inductive AllocErr where
  | Exhausted (request : Layout)
  | AllocError
deriving DecidableEq, Repr

/-- The eight sub-allocators of `Heap` (`enum HeapAllocator` in `lib.rs`). -/
inductive HeapAllocator where
  | Slab64Bytes
  | Slab128Bytes
  | Slab256Bytes
  | Slab512Bytes
  | Slab1024Bytes
  | Slab2048Bytes
  | Slab4096Bytes
  | LinkedListAllocator
deriving DecidableEq, Repr

def NUM_OF_SLABS : Nat := 8
def MIN_SLAB_SIZE : Nat := 4096
def MIN_HEAP_SIZE : Nat := NUM_OF_SLABS * MIN_SLAB_SIZE

/-- `Heap::layout_to_allocator` (`lib.rs` lines 171-189), translated branch by
branch from the `if`/`else if` cascade. -/
def layout_to_allocator (layout : Layout) : HeapAllocator :=
  if layout.size > 4096 then
    HeapAllocator.LinkedListAllocator
  else if layout.size ≤ 64 ∧ layout.align ≤ 64 then
    HeapAllocator.Slab64Bytes
  else if layout.size ≤ 128 ∧ layout.align ≤ 128 then
    HeapAllocator.Slab128Bytes
  else if layout.size ≤ 256 ∧ layout.align ≤ 256 then
    HeapAllocator.Slab256Bytes
  else if layout.size ≤ 512 ∧ layout.align ≤ 512 then
    HeapAllocator.Slab512Bytes
  else if layout.size ≤ 1024 ∧ layout.align ≤ 1024 then
    HeapAllocator.Slab1024Bytes
  else if layout.size ≤ 2048 ∧ layout.align ≤ 2048 then
    HeapAllocator.Slab2048Bytes
  else
    HeapAllocator.Slab4096Bytes

/-- The block sizes of the six slabs appearing in the spec's small-slab
cascade (Slab4096 is the fall-through row). -/
def cascadeBlockSizes : List Nat := [64, 128, 256, 512, 1024, 2048]

/-- Map a cascade block size to its slab. -/
def slabOfBlockSize (b : Nat) : HeapAllocator :=
  if b = 64 then HeapAllocator.Slab64Bytes
  else if b = 128 then HeapAllocator.Slab128Bytes
  else if b = 256 then HeapAllocator.Slab256Bytes
  else if b = 512 then HeapAllocator.Slab512Bytes
  else if b = 1024 then HeapAllocator.Slab1024Bytes
  else if b = 2048 then HeapAllocator.Slab2048Bytes
  else HeapAllocator.Slab4096Bytes

/-- The spec's decision table, stated the way the claim words it: requests of
size > 4096 go to the linked-list allocator; otherwise the first slab in the
cascade whose block size is ≥ both size and align; otherwise Slab4096. -/
def choose_spec (layout : Layout) : HeapAllocator :=
  if layout.size > 4096 then
    HeapAllocator.LinkedListAllocator
  else
    match cascadeBlockSizes.find? (fun b => layout.size ≤ b && layout.align ≤ b) with
    | some b => slabOfBlockSize b
    | none => HeapAllocator.Slab4096Bytes

/-!
## The slab cache (`src/slab.rs`, functional view)

A slab's intrusive free-block list is modelled by the list of block
addresses in list order (head first).  `FreeBlockList::pop_front` returns the
head, `push_front` prepends, `push_back` appends; the pointer-level
implementation and its correspondence with this view are developed in the
`FreeBlockList` section below.
-/

/-- `FreeBlockList::new(start_addr, block_size, num_of_blocks)` pushes the
blocks `start_addr + i * block_size` for `i = 0 … num_of_blocks - 1` to the
back of an empty list, so the resulting order is by increasing index. -/
def freeListNew (start_addr block_size num_of_blocks : Nat) : List Nat :=
  (List.range num_of_blocks).foldl (fun l i => l ++ [start_addr + i * block_size]) []

/-- `struct Slab` from `slab.rs`: a start address, a region length, a block
size and the free-block list. -/
structure Slab where
  start_addr : Nat
  slab_size : Nat
  block_size : Nat
  free_block_list : List Nat
deriving DecidableEq, Repr

/-- `Slab::new(start_addr, slab_size, block_size)`. -/
def Slab.new (start_addr slab_size block_size : Nat) : Slab :=
  { start_addr := start_addr
    slab_size := slab_size
    block_size := block_size
    free_block_list := freeListNew start_addr block_size (slab_size / block_size) }

/-- `Slab::allocate`: pop the list head; `Err(AllocErr::Exhausted)` when the
list is empty.  The layout is not inspected. -/
def Slab.allocate (s : Slab) (layout : Layout) : Except AllocErr Nat × Slab :=
  match s.free_block_list with
  | [] => (Except.error (AllocErr.Exhausted layout), s)
  | b :: rest => (Except.ok b, { s with free_block_list := rest })

/-- `Slab::deallocate(ptr)`: push the block onto the front of the list. -/
def Slab.deallocate (s : Slab) (ptr : Nat) : Slab :=
  { s with free_block_list := ptr :: s.free_block_list }

/-- Modelled from the spec: `Slab::grow` is called from `Heap::grow` but is
absent from the sources in `src/`; spec §4.2 says it "appends
`region_len / block_size` newly-minted free blocks drawn from the new
region". -/
def Slab.grow (s : Slab) (mem_start_addr mem_size : Nat) : Slab :=
  { s with
    slab_size := s.slab_size + mem_size
    free_block_list :=
      s.free_block_list ++ freeListNew mem_start_addr s.block_size (mem_size / s.block_size) }

/-!
## The large-block allocator

`linked_list_allocator::Heap` is an external crate, not part of this
repository's sources, so it is modelled from the spec (§4.3): a first-fit
allocator over a list of free extents `(start, len)`.
-/

/-- Round `a` up to the next multiple of `align` (`align > 0`). -/
def alignUp (a align : Nat) : Nat := ((a + align - 1) / align) * align

/-- Modelled from the spec: the external `linked_list_allocator::Heap` is a
first-fit allocator over a sorted list of free extents `(start, len)`. -/
structure LinkedListHeap where
  extents : List (Nat × Nat)
deriving DecidableEq, Repr

/-- Modelled from the spec: `new(start, len)` has the single free extent
`[start, start + len)`. -/
def LinkedListHeap.new (start len : Nat) : LinkedListHeap :=
  { extents := [(start, len)] }

/-- Modelled from the spec: first-fit scan — return the first extent that can
carve an aligned sub-range of `layout.size` bytes, splitting off the
non-empty remainders. -/
def llFirstFit (layout : Layout) : List (Nat × Nat) → Option (Nat × List (Nat × Nat))
  | [] => none
  | (s, l) :: rest =>
    let a := alignUp s layout.align
    if a + layout.size ≤ s + l then
      let before := if a = s then [] else [(s, a - s)]
      let after := if a + layout.size = s + l then [] else [(a + layout.size, s + l - (a + layout.size))]
      some (a, before ++ after ++ rest)
    else
      match llFirstFit layout rest with
      | none => none
      | some (p, rest') => some (p, (s, l) :: rest')

/-- Modelled from the spec: `allocate_first_fit`. -/
def LinkedListHeap.allocate_first_fit (h : LinkedListHeap) (layout : Layout) :
    Except Unit (Nat × LinkedListHeap) :=
  match llFirstFit layout h.extents with
  | none => Except.error ()
  | some (p, ext') => Except.ok (p, { extents := ext' })

/-- Modelled from the spec: reinsert `[ptr, ptr + layout.size)` into the
sorted extent list, coalescing with adjacent extents. -/
def llInsert (ptr len : Nat) : List (Nat × Nat) → List (Nat × Nat)
  | [] => [(ptr, len)]
  | (s, l) :: rest =>
    if ptr + len < s then (ptr, len) :: (s, l) :: rest
    else if ptr + len = s then (ptr, len + l) :: rest
    else if s + l = ptr then
      match rest with
      | (s2, l2) :: rest2 =>
        if ptr + len = s2 then (s, l + len + l2) :: rest2
        else (s, l + len) :: rest
      | [] => [(s, l + len)]
    else (s, l) :: llInsert ptr len rest

/-- Modelled from the spec: `deallocate` reinserts the freed extent,
coalescing with its neighbours. -/
def LinkedListHeap.deallocate (h : LinkedListHeap) (ptr : Nat) (layout : Layout) :
    LinkedListHeap :=
  { extents := llInsert ptr layout.size h.extents }

/-- Modelled from the spec: `extend(extra_len)` grows the last extent in
place. -/
def LinkedListHeap.extend (h : LinkedListHeap) (extra_len : Nat) : LinkedListHeap :=
  match h.extents.reverse with
  | [] => { extents := [] }
  | (s, l) :: rest => { extents := ((s, l + extra_len) :: rest).reverse }

/-!
## The heap (`src/lib.rs`)
-/

/-- `struct Heap`: seven slabs and the linked-list allocator. -/
structure Heap where
  slab_64_bytes : Slab
  slab_128_bytes : Slab
  slab_256_bytes : Slab
  slab_512_bytes : Slab
  slab_1024_bytes : Slab
  slab_2048_bytes : Slab
  slab_4096_bytes : Slab
  linked_list_allocator : LinkedListHeap
deriving DecidableEq, Repr

/-- The value `heap_start_addr + 7 * slab_size` that `Heap::new` (lib.rs
line 75) converts to `u8` with `try_into().unwrap()`: the conversion
succeeds only when the value fits in a byte, otherwise the `unwrap` panics
(modelled as `none`). -/
def heapBottomU8 (heap_start_addr heap_size : Nat) : Option Nat :=
  let slab_size := heap_size / NUM_OF_SLABS
  let v := heap_start_addr + 7 * slab_size
  if v ≤ 255 then some v else none

/-- `Heap::new` as written in `lib.rs`: the three assertions, then the
truncating `usize → u8` conversion of the linked-list allocator's bottom
address.  `none` models a panic (a failed assertion or the failed
`unwrap`).  When the conversion succeeds the Rust code goes on to pass the
address of the stack local `heap_bottom` to the linked-list allocator; that
address is not representable here, so the model uses the (truncated)
converted value itself — this only makes the model more generous to the
code, and the branch is in fact unreachable for every input that passes the
assertions (see `C3_heap_new_always_panics`). -/
def Heap.newSrc (heap_start_addr heap_size : Nat) : Option Heap :=
  if heap_start_addr % 4096 ≠ 0 then none
  else if heap_size < MIN_HEAP_SIZE then none
  else if heap_size % MIN_HEAP_SIZE ≠ 0 then none
  else
    let slab_size := heap_size / NUM_OF_SLABS
    match heapBottomU8 heap_start_addr heap_size with
    | none => none
    | some heap_bottom =>
      some
        { slab_64_bytes := Slab.new heap_start_addr slab_size 64
          slab_128_bytes := Slab.new (heap_start_addr + slab_size) slab_size 128
          slab_256_bytes := Slab.new (heap_start_addr + 2 * slab_size) slab_size 256
          slab_512_bytes := Slab.new (heap_start_addr + 3 * slab_size) slab_size 512
          slab_1024_bytes := Slab.new (heap_start_addr + 4 * slab_size) slab_size 1024
          slab_2048_bytes := Slab.new (heap_start_addr + 5 * slab_size) slab_size 2048
          slab_4096_bytes := Slab.new (heap_start_addr + 6 * slab_size) slab_size 4096
          linked_list_allocator := LinkedListHeap.new heap_bottom slab_size }

/-- `Heap::new` with the slab construction taken verbatim from `lib.rs` and
the linked-list allocator's bottom address modelled from the spec (§9.1):
"Implementations should use the address `heap_start + 7 * slab_size`
directly without truncation" — the in-source computation truncates it to
`u8` and panics (see `C3_heap_new_always_panics`). -/
def Heap.new_intended (heap_start_addr heap_size : Nat) : Heap :=
  let slab_size := heap_size / NUM_OF_SLABS
  { slab_64_bytes := Slab.new heap_start_addr slab_size 64
    slab_128_bytes := Slab.new (heap_start_addr + slab_size) slab_size 128
    slab_256_bytes := Slab.new (heap_start_addr + 2 * slab_size) slab_size 256
    slab_512_bytes := Slab.new (heap_start_addr + 3 * slab_size) slab_size 512
    slab_1024_bytes := Slab.new (heap_start_addr + 4 * slab_size) slab_size 1024
    slab_2048_bytes := Slab.new (heap_start_addr + 5 * slab_size) slab_size 2048
    slab_4096_bytes := Slab.new (heap_start_addr + 6 * slab_size) slab_size 4096
    linked_list_allocator := LinkedListHeap.new (heap_start_addr + 7 * slab_size) slab_size }

/-- `Heap::allocate`: classify with `layout_to_allocator`, delegate to the
chosen sub-allocator; the linked-list allocator's error is mapped to
`core::alloc::AllocError`. -/
def Heap.allocate (h : Heap) (layout : Layout) : Except AllocErr Nat × Heap :=
  match layout_to_allocator layout with
  | HeapAllocator.Slab64Bytes =>
    ((h.slab_64_bytes.allocate layout).1, { h with slab_64_bytes := (h.slab_64_bytes.allocate layout).2 })
  | HeapAllocator.Slab128Bytes =>
    ((h.slab_128_bytes.allocate layout).1, { h with slab_128_bytes := (h.slab_128_bytes.allocate layout).2 })
  | HeapAllocator.Slab256Bytes =>
    ((h.slab_256_bytes.allocate layout).1, { h with slab_256_bytes := (h.slab_256_bytes.allocate layout).2 })
  | HeapAllocator.Slab512Bytes =>
    ((h.slab_512_bytes.allocate layout).1, { h with slab_512_bytes := (h.slab_512_bytes.allocate layout).2 })
  | HeapAllocator.Slab1024Bytes =>
    ((h.slab_1024_bytes.allocate layout).1, { h with slab_1024_bytes := (h.slab_1024_bytes.allocate layout).2 })
  | HeapAllocator.Slab2048Bytes =>
    ((h.slab_2048_bytes.allocate layout).1, { h with slab_2048_bytes := (h.slab_2048_bytes.allocate layout).2 })
  | HeapAllocator.Slab4096Bytes =>
    ((h.slab_4096_bytes.allocate layout).1, { h with slab_4096_bytes := (h.slab_4096_bytes.allocate layout).2 })
  | HeapAllocator.LinkedListAllocator =>
    match h.linked_list_allocator.allocate_first_fit layout with
    | Except.error _ => (Except.error AllocErr.AllocError, h)
    | Except.ok (p, ll) => (Except.ok p, { h with linked_list_allocator := ll })

/-- `Heap::deallocate`: classify with `layout_to_allocator`, delegate. -/
def Heap.deallocate (h : Heap) (ptr : Nat) (layout : Layout) : Heap :=
  match layout_to_allocator layout with
  | HeapAllocator.Slab64Bytes => { h with slab_64_bytes := h.slab_64_bytes.deallocate ptr }
  | HeapAllocator.Slab128Bytes => { h with slab_128_bytes := h.slab_128_bytes.deallocate ptr }
  | HeapAllocator.Slab256Bytes => { h with slab_256_bytes := h.slab_256_bytes.deallocate ptr }
  | HeapAllocator.Slab512Bytes => { h with slab_512_bytes := h.slab_512_bytes.deallocate ptr }
  | HeapAllocator.Slab1024Bytes => { h with slab_1024_bytes := h.slab_1024_bytes.deallocate ptr }
  | HeapAllocator.Slab2048Bytes => { h with slab_2048_bytes := h.slab_2048_bytes.deallocate ptr }
  | HeapAllocator.Slab4096Bytes => { h with slab_4096_bytes := h.slab_4096_bytes.deallocate ptr }
  | HeapAllocator.LinkedListAllocator =>
    { h with linked_list_allocator := h.linked_list_allocator.deallocate ptr layout }

/-- `Heap::grow(mem_start_addr, mem_size, slab)`: forward to the selected
sub-allocator; the linked-list arm passes only `mem_size` to `extend`. -/
def Heap.grow (h : Heap) (mem_start_addr mem_size : Nat) (slab : HeapAllocator) : Heap :=
  match slab with
  | HeapAllocator.Slab64Bytes => { h with slab_64_bytes := h.slab_64_bytes.grow mem_start_addr mem_size }
  | HeapAllocator.Slab128Bytes => { h with slab_128_bytes := h.slab_128_bytes.grow mem_start_addr mem_size }
  | HeapAllocator.Slab256Bytes => { h with slab_256_bytes := h.slab_256_bytes.grow mem_start_addr mem_size }
  | HeapAllocator.Slab512Bytes => { h with slab_512_bytes := h.slab_512_bytes.grow mem_start_addr mem_size }
  | HeapAllocator.Slab1024Bytes => { h with slab_1024_bytes := h.slab_1024_bytes.grow mem_start_addr mem_size }
  | HeapAllocator.Slab2048Bytes => { h with slab_2048_bytes := h.slab_2048_bytes.grow mem_start_addr mem_size }
  | HeapAllocator.Slab4096Bytes => { h with slab_4096_bytes := h.slab_4096_bytes.grow mem_start_addr mem_size }
  | HeapAllocator.LinkedListAllocator =>
    { h with linked_list_allocator := h.linked_list_allocator.extend mem_size }

/-- `Heap::usable_size(&layout)`.  (`&self` is not read.) -/
def Heap.usable_size (layout : Layout) : Nat × Nat :=
  match layout_to_allocator layout with
  | HeapAllocator.Slab64Bytes => (layout.size, 64)
  | HeapAllocator.Slab128Bytes => (layout.size, 128)
  | HeapAllocator.Slab256Bytes => (layout.size, 256)
  | HeapAllocator.Slab512Bytes => (layout.size, 512)
  | HeapAllocator.Slab1024Bytes => (layout.size, 1024)
  | HeapAllocator.Slab2048Bytes => (layout.size, 2048)
  | HeapAllocator.Slab4096Bytes => (layout.size, 4096)
  | HeapAllocator.LinkedListAllocator => (layout.size, layout.size)

/-- Project a sub-allocator's state out of the heap, as a sum so that the
eight components can be compared uniformly. -/
def Heap.subAlloc (h : Heap) : HeapAllocator → Slab ⊕ LinkedListHeap
  | HeapAllocator.Slab64Bytes => Sum.inl h.slab_64_bytes
  | HeapAllocator.Slab128Bytes => Sum.inl h.slab_128_bytes
  | HeapAllocator.Slab256Bytes => Sum.inl h.slab_256_bytes
  | HeapAllocator.Slab512Bytes => Sum.inl h.slab_512_bytes
  | HeapAllocator.Slab1024Bytes => Sum.inl h.slab_1024_bytes
  | HeapAllocator.Slab2048Bytes => Sum.inl h.slab_2048_bytes
  | HeapAllocator.Slab4096Bytes => Sum.inl h.slab_4096_bytes
  | HeapAllocator.LinkedListAllocator => Sum.inr h.linked_list_allocator

/-- The block size of each slab (`0` for the linked-list allocator, which has
no block size). -/
def blockSize : HeapAllocator → Nat
  | HeapAllocator.Slab64Bytes => 64
  | HeapAllocator.Slab128Bytes => 128
  | HeapAllocator.Slab256Bytes => 256
  | HeapAllocator.Slab512Bytes => 512
  | HeapAllocator.Slab1024Bytes => 1024
  | HeapAllocator.Slab2048Bytes => 2048
  | HeapAllocator.Slab4096Bytes => 4096
  | HeapAllocator.LinkedListAllocator => 0

/-- Spec-side dispatcher: what `Heap::allocate` does once the target
sub-allocator is fixed.  Used to state that `allocate` dispatches to the
sub-allocator chosen by the decision table. -/
def Heap.allocate_at (h : Heap) (a : HeapAllocator) (layout : Layout) : Except AllocErr Nat × Heap :=
  match a with
  | HeapAllocator.Slab64Bytes =>
    ((h.slab_64_bytes.allocate layout).1, { h with slab_64_bytes := (h.slab_64_bytes.allocate layout).2 })
  | HeapAllocator.Slab128Bytes =>
    ((h.slab_128_bytes.allocate layout).1, { h with slab_128_bytes := (h.slab_128_bytes.allocate layout).2 })
  | HeapAllocator.Slab256Bytes =>
    ((h.slab_256_bytes.allocate layout).1, { h with slab_256_bytes := (h.slab_256_bytes.allocate layout).2 })
  | HeapAllocator.Slab512Bytes =>
    ((h.slab_512_bytes.allocate layout).1, { h with slab_512_bytes := (h.slab_512_bytes.allocate layout).2 })
  | HeapAllocator.Slab1024Bytes =>
    ((h.slab_1024_bytes.allocate layout).1, { h with slab_1024_bytes := (h.slab_1024_bytes.allocate layout).2 })
  | HeapAllocator.Slab2048Bytes =>
    ((h.slab_2048_bytes.allocate layout).1, { h with slab_2048_bytes := (h.slab_2048_bytes.allocate layout).2 })
  | HeapAllocator.Slab4096Bytes =>
    ((h.slab_4096_bytes.allocate layout).1, { h with slab_4096_bytes := (h.slab_4096_bytes.allocate layout).2 })
  | HeapAllocator.LinkedListAllocator =>
    match h.linked_list_allocator.allocate_first_fit layout with
    | Except.error _ => (Except.error AllocErr.AllocError, h)
    | Except.ok (p, ll) => (Except.ok p, { h with linked_list_allocator := ll })

/-- Spec-side dispatcher for `Heap::deallocate` with the target fixed. -/
def Heap.deallocate_at (h : Heap) (a : HeapAllocator) (ptr : Nat) (layout : Layout) : Heap :=
  match a with
  | HeapAllocator.Slab64Bytes => { h with slab_64_bytes := h.slab_64_bytes.deallocate ptr }
  | HeapAllocator.Slab128Bytes => { h with slab_128_bytes := h.slab_128_bytes.deallocate ptr }
  | HeapAllocator.Slab256Bytes => { h with slab_256_bytes := h.slab_256_bytes.deallocate ptr }
  | HeapAllocator.Slab512Bytes => { h with slab_512_bytes := h.slab_512_bytes.deallocate ptr }
  | HeapAllocator.Slab1024Bytes => { h with slab_1024_bytes := h.slab_1024_bytes.deallocate ptr }
  | HeapAllocator.Slab2048Bytes => { h with slab_2048_bytes := h.slab_2048_bytes.deallocate ptr }
  | HeapAllocator.Slab4096Bytes => { h with slab_4096_bytes := h.slab_4096_bytes.deallocate ptr }
  | HeapAllocator.LinkedListAllocator =>
    { h with linked_list_allocator := h.linked_list_allocator.deallocate ptr layout }

/-- Spec-side dispatcher for `Heap::usable_size` with the target fixed:
`(layout.size, block size of the chosen slab)`, and `(layout.size,
layout.size)` for the linked-list allocator. -/
def usable_size_at (a : HeapAllocator) (layout : Layout) : Nat × Nat :=
  match a with
  | HeapAllocator.LinkedListAllocator => (layout.size, layout.size)
  | a => (layout.size, blockSize a)

/-- The heap state after `n` successive `allocate` calls with the same
layout (results discarded). -/
def Heap.allocN (h : Heap) (layout : Layout) : Nat → Heap
  | 0 => h
  | n + 1 => Heap.allocN (h.allocate layout).2 layout n

/-- The result of the `k`-th (0-based) allocation in a run of successive
`Slab::allocate` calls. -/
def Slab.allocateN (s : Slab) (layout : Layout) : Nat → Except AllocErr Nat
  | 0 => (s.allocate layout).1
  | k + 1 => Slab.allocateN (s.allocate layout).2 layout k

/-!
## The intrusive free-block list (`src/slab.rs`, pointer level)

`FreeBlockList` is a doubly linked list whose nodes live inside the free
blocks themselves.  Memory is modelled as a total map from block addresses
to `FreeBlock` link pairs; each operation returns the updated memory
alongside the updated list header, mirroring the `unsafe` pointer writes of
the source line by line.
-/

/-- `struct FreeBlock { next, prev }`: the two links stored in a free block. -/
structure FreeBlock where
  next : Option Nat
  prev : Option Nat
deriving DecidableEq, Repr

/-- Memory: the contents of (potential) free blocks, indexed by address. -/
def Mem : Type := Nat → FreeBlock

/-- Write a whole block. -/
def Mem.write (m : Mem) (a : Nat) (b : FreeBlock) : Mem :=
  fun x => if x = a then b else m x

/-- `(*a).next = nx`. -/
def Mem.setNext (m : Mem) (a : Nat) (nx : Option Nat) : Mem :=
  m.write a { m a with next := nx }

/-- `(*a).prev = pv`. -/
def Mem.setPrev (m : Mem) (a : Nat) (pv : Option Nat) : Mem :=
  m.write a { m a with prev := pv }

/-- `struct FreeBlockList { len, head, tail }`. -/
structure FreeBlockList where
  len : Nat
  head : Option Nat
  tail : Option Nat
deriving DecidableEq, Repr

/-- `FreeBlockList::new_empty`. -/
def FreeBlockList.new_empty : FreeBlockList :=
  { len := 0, head := none, tail := none }

/-- `FreeBlockList::push_front(free_block)`: `free_block.next = head;
free_block.prev = None; match head { None => tail = node, Some(head) =>
head.prev = node }; head = node; len += 1`. -/
def FreeBlockList.push_front (m : Mem) (s : FreeBlockList) (free_block : Nat) :
    Mem × FreeBlockList :=
  let m1 := (m.setNext free_block s.head).setPrev free_block none
  match s.head with
  | none =>
    (m1, { len := s.len + 1, head := some free_block, tail := some free_block })
  | some hd =>
    (m1.setPrev hd (some free_block),
     { len := s.len + 1, head := some free_block, tail := s.tail })

/-- `FreeBlockList::push_back(free_block)`: `free_block.next = None;
free_block.prev = tail; match tail { None => head = node, Some(tail) =>
tail.next = node }; tail = node; len += 1`. -/
def FreeBlockList.push_back (m : Mem) (s : FreeBlockList) (free_block : Nat) :
    Mem × FreeBlockList :=
  let m1 := (m.setNext free_block none).setPrev free_block s.tail
  match s.tail with
  | none =>
    (m1, { len := s.len + 1, head := some free_block, tail := some free_block })
  | some tl =>
    (m1.setNext tl (some free_block),
     { len := s.len + 1, head := s.head, tail := some free_block })

/-- `FreeBlockList::pop_front`: take the head; the next node (if any)
becomes the head and its `prev` is cleared, otherwise the tail is cleared;
`len -= 1`. -/
def FreeBlockList.pop_front (m : Mem) (s : FreeBlockList) :
    Option Nat × Mem × FreeBlockList :=
  match s.head with
  | none => (none, m, s)
  | some node =>
    match (m node).next with
    | none => (some node, m, { len := s.len - 1, head := none, tail := none })
    | some h => (some node, m.setPrev h none, { len := s.len - 1, head := some h, tail := s.tail })

/-- `FreeBlockList::pop_back`: take the tail; the previous node (if any)
becomes the tail and its `next` is cleared, otherwise the head is cleared;
`len -= 1`. -/
def FreeBlockList.pop_back (m : Mem) (s : FreeBlockList) :
    Option Nat × Mem × FreeBlockList :=
  match s.tail with
  | none => (none, m, s)
  | some node =>
    match (m node).prev with
    | none => (some node, m, { len := s.len - 1, head := none, tail := none })
    | some t => (some node, m.setNext t none, { len := s.len - 1, head := s.head, tail := some t })

/-- `FreeBlockList::new(start_addr, block_size, num_of_blocks)`: push the
blocks `start_addr + i * block_size` to the back of an empty list in index
order. -/
def FreeBlockList.new (m : Mem) (start_addr block_size num_of_blocks : Nat) :
    Mem × FreeBlockList :=
  (List.range num_of_blocks).foldl
    (fun p i => FreeBlockList.push_back p.1 p.2 (start_addr + i * block_size))
    (m, FreeBlockList.new_empty)

/-- The value returned by the `k`-th (0-based) `pop_front` in a run of
successive pops. -/
def FreeBlockList.popN (m : Mem) (s : FreeBlockList) : Nat → Option Nat
  | 0 => (FreeBlockList.pop_front m s).1
  | k + 1 =>
    let r := FreeBlockList.pop_front m s
    FreeBlockList.popN r.2.1 r.2.2 k

/-- A chain through link field `f`: starting from an optional address and
following `f`, exactly the nodes of `l` are visited, ending at `none`. -/
inductive Chain (f : Nat → Option Nat) : Option Nat → List Nat → Prop
  | nil : Chain f none []
  | cons (a : Nat) (l : List Nat) : Chain f (f a) l → Chain f (some a) (a :: l)

/-- The `next` field of `a` in memory `m`. -/
def nextOf (m : Mem) (a : Nat) : Option Nat := (m a).next

/-- The `prev` field of `a` in memory `m`. -/
def prevOf (m : Mem) (a : Nat) : Option Nat := (m a).prev

/-- The representation invariant of `FreeBlockList`: `l` is the chain of
nodes reachable from `head` through the `next` links; the `prev` links
chain the same nodes in reverse from `tail`; the nodes are distinct; and
the stored `len` is the number of reachable nodes. -/
structure ListRep (m : Mem) (s : FreeBlockList) (l : List Nat) : Prop where
  next_chain : Chain (nextOf m) s.head l
  prev_chain : Chain (prevOf m) s.tail l.reverse
  nodup : l.Nodup
  len_eq : s.len = l.length

/-- A concrete memory with all links null, for instantiating the generic
theorems. -/
def mem0 : Mem := fun _ => { next := none, prev := none }

/-!
## Chain lemmas
-/

theorem Chain.nil_inv {f : Nat → Option Nat} {h : Option Nat} (hc : Chain f h []) : h = none := by
  cases hc
  rfl

theorem Chain.none_inv {f : Nat → Option Nat} {l : List Nat} (hc : Chain f none l) : l = [] := by
  cases hc
  rfl

theorem Chain.some_inv {f : Nat → Option Nat} {a : Nat} {l : List Nat}
    (hc : Chain f (some a) l) : ∃ l', l = a :: l' ∧ Chain f (f a) l' := by
  cases hc with
  | cons _ l' h => exact ⟨l', rfl, h⟩

theorem Chain.congr {f f' : Nat → Option Nat} {h : Option Nat} {l : List Nat}
    (hc : Chain f h l) (hf : ∀ a ∈ l, f' a = f a) : Chain f' h l := by
  induction hc with
  | nil => exact Chain.nil
  | cons a l' _ ih =>
    refine Chain.cons a l' ?_
    rw [hf a (List.mem_cons_self a l')]
    exact ih fun x hx => hf x (List.mem_cons_of_mem a hx)

theorem Chain.snoc {f f' : Nat → Option Nat} {h : Option Nat} {l : List Nat} {t b : Nat}
    (hc : Chain f h l) (hnd : l.Nodup) (hlast : l.getLast? = some t)
    (hagree : ∀ a ∈ l, a ≠ t → f' a = f a)
    (hft : f' t = some b) (hfb : f' b = none) :
    Chain f' h (l ++ [b]) := by
  induction hc with
  | nil => simp at hlast
  | cons a l' hc' ih =>
    cases l' with
    | nil =>
      have hat : a = t := by simpa using hlast
      subst hat
      refine Chain.cons a [b] ?_
      rw [hft]
      refine Chain.cons b [] ?_
      rw [hfb]
      exact Chain.nil
    | cons c l'' =>
      have hlast' : (c :: l'').getLast? = some t := by
        rwa [List.getLast?_cons_cons] at hlast
      have htmem : t ∈ c :: l'' := List.mem_of_mem_getLast? (by simp [hlast'])
      have hanotin : a ∉ c :: l'' := (List.nodup_cons.mp hnd).1
      have hat : a ≠ t := fun he => hanotin (he ▸ htmem)
      have step := ih (List.nodup_cons.mp hnd).2 hlast'
        (fun x hx hxt => hagree x (List.mem_cons_of_mem a hx) hxt)
      refine Chain.cons a ((c :: l'') ++ [b]) ?_
      rw [hagree a (List.mem_cons_self _ _) hat]
      exact step

theorem Chain.unsnoc {f f' : Nat → Option Nat} {h : Option Nat} {l : List Nat} {t u : Nat}
    (hc : Chain f h (l ++ [t])) (hnd : (l ++ [t]).Nodup)
    (hlast : l.getLast? = some u)
    (hagree : ∀ a ∈ l, a ≠ u → f' a = f a) (hfu : f' u = none) :
    Chain f' h l := by
  induction l generalizing h with
  | nil => simp at hlast
  | cons a l' ih =>
    rw [List.cons_append] at hc hnd
    cases hc with
    | cons _ _ hc' => ?_
    cases l' with
    | nil =>
      have hau : a = u := by simpa using hlast
      subst hau
      refine Chain.cons a [] ?_
      rw [hfu]
      exact Chain.nil
    | cons c l'' =>
      have hlast' : (c :: l'').getLast? = some u := by
        rwa [List.getLast?_cons_cons] at hlast
      have humem : u ∈ c :: l'' := List.mem_of_mem_getLast? (by simp [hlast'])
      have hanotin : a ∉ (c :: l'') ++ [t] := (List.nodup_cons.mp hnd).1
      have hau : a ≠ u := fun he2 => hanotin (List.mem_append_left _ (he2 ▸ humem))
      have step := ih hc' (List.nodup_cons.mp hnd).2 hlast'
        (fun x hx hxu => hagree x (List.mem_cons_of_mem a hx) hxu)
      refine Chain.cons a (c :: l'') ?_
      rw [hagree a (List.mem_cons_self _ _) hau]
      exact step

/-!
## Memory-update lemmas
-/

theorem nextOf_setPrev (m : Mem) (a : Nat) (pv : Option Nat) (x : Nat) :
    nextOf (m.setPrev a pv) x = nextOf m x := by
  unfold nextOf Mem.setPrev Mem.write
  by_cases hx : x = a <;> simp [hx]

theorem prevOf_setNext (m : Mem) (a : Nat) (nx : Option Nat) (x : Nat) :
    prevOf (m.setNext a nx) x = prevOf m x := by
  unfold prevOf Mem.setNext Mem.write
  by_cases hx : x = a <;> simp [hx]

theorem nextOf_setNext_self (m : Mem) (a : Nat) (nx : Option Nat) :
    nextOf (m.setNext a nx) a = nx := by
  simp [nextOf, Mem.setNext, Mem.write]

theorem nextOf_setNext_ne (m : Mem) (a : Nat) (nx : Option Nat) {x : Nat} (hx : x ≠ a) :
    nextOf (m.setNext a nx) x = nextOf m x := by
  simp [nextOf, Mem.setNext, Mem.write, hx]

theorem prevOf_setPrev_self (m : Mem) (a : Nat) (pv : Option Nat) :
    prevOf (m.setPrev a pv) a = pv := by
  simp [prevOf, Mem.setPrev, Mem.write]

theorem prevOf_setPrev_ne (m : Mem) (a : Nat) (pv : Option Nat) {x : Nat} (hx : x ≠ a) :
    prevOf (m.setPrev a pv) x = prevOf m x := by
  simp [prevOf, Mem.setPrev, Mem.write, hx]

/-!
## Preservation of the representation invariant
-/

/-- The empty list header represents `[]` in any memory. -/
theorem new_empty_rep (m : Mem) : ListRep m FreeBlockList.new_empty [] :=
  { next_chain := Chain.nil
    prev_chain := Chain.nil
    nodup := List.nodup_nil
    len_eq := rfl }

/-- `push_front` of a block that is not already on the list prepends it. -/
theorem push_front_rep {m : Mem} {s : FreeBlockList} {l : List Nat} {b : Nat}
    (hrep : ListRep m s l) (hb : b ∉ l) :
    ListRep (FreeBlockList.push_front m s b).1 (FreeBlockList.push_front m s b).2 (b :: l) := by
  obtain ⟨hnext, hprev, hnd, hlen⟩ := hrep
  unfold FreeBlockList.push_front
  cases hh : s.head with
  | none =>
    dsimp only
    have hl : l = [] := by
      rw [hh] at hnext
      exact hnext.none_inv
    subst hl
    have ht : s.tail = none := hprev.nil_inv
    refine ⟨?_, ?_, by simp, by simp [hlen]⟩
    · refine Chain.cons b [] ?_
      rw [nextOf_setPrev, nextOf_setNext_self]
      exact Chain.nil
    · refine Chain.cons b [] ?_
      rw [prevOf_setPrev_self]
      exact Chain.nil
  | some hd =>
    dsimp only
    rw [hh] at hnext
    obtain ⟨l₂, hl, hc₂⟩ := hnext.some_inv
    have hbhd : b ≠ hd := by
      intro he
      exact hb (he ▸ hl ▸ List.mem_cons_self hd l₂)
    refine ⟨?_, ?_, List.nodup_cons.mpr ⟨hb, hnd⟩, by simp [hlen]⟩
    · -- next chain of b :: l
      refine Chain.cons b l ?_
      have hnb : nextOf (((m.setNext b (some hd)).setPrev b none).setPrev hd (some b)) b
          = some hd := by
        rw [nextOf_setPrev, nextOf_setPrev, nextOf_setNext_self]
      rw [hnb]
      refine Chain.congr (hl ▸ Chain.cons hd l₂ hc₂) ?_
      intro a ha
      have hab : a ≠ b := fun he => hb (he ▸ ha)
      rw [nextOf_setPrev, nextOf_setPrev, nextOf_setNext_ne m b (some hd) hab]
    · -- prev chain of (b :: l).reverse = l.reverse ++ [b]
      rw [List.reverse_cons]
      have hdlast : l.reverse.getLast? = some hd := by
        rw [List.getLast?_eq_head?_reverse, List.reverse_reverse, hl]
        rfl
      refine Chain.snoc hprev (List.nodup_reverse.mpr hnd) hdlast ?_ ?_ ?_
      · intro a ha hahd
        have hab : a ≠ b := fun he => hb (he ▸ List.mem_reverse.mp ha)
        rw [prevOf_setPrev_ne _ _ _ hahd, prevOf_setPrev_ne _ _ _ hab, prevOf_setNext]
      · rw [prevOf_setPrev_self]
      · rw [prevOf_setPrev_ne _ _ _ hbhd, prevOf_setPrev_self]

/-- `push_back` of a block that is not already on the list appends it. -/
theorem push_back_rep {m : Mem} {s : FreeBlockList} {l : List Nat} {b : Nat}
    (hrep : ListRep m s l) (hb : b ∉ l) :
    ListRep (FreeBlockList.push_back m s b).1 (FreeBlockList.push_back m s b).2 (l ++ [b]) := by
  obtain ⟨hnext, hprev, hnd, hlen⟩ := hrep
  unfold FreeBlockList.push_back
  cases hh : s.tail with
  | none =>
    dsimp only
    have hl : l = [] := by
      rw [hh] at hprev
      have := hprev.none_inv
      simpa using this
    subst hl
    refine ⟨?_, ?_, by simp, by simp [hlen]⟩
    · refine Chain.cons b [] ?_
      rw [nextOf_setPrev, nextOf_setNext_self]
      exact Chain.nil
    · refine Chain.cons b [] ?_
      rw [prevOf_setPrev_self]
      exact Chain.nil
  | some tl =>
    dsimp only
    rw [hh] at hprev
    obtain ⟨r₂, hr, hc₂⟩ := hprev.some_inv
    have htl_mem : tl ∈ l := by
      have : tl ∈ l.reverse := hr ▸ List.mem_cons_self tl r₂
      exact List.mem_reverse.mp this
    have hbtl : b ≠ tl := fun he => hb (he ▸ htl_mem)
    have hlastl : l.getLast? = some tl := by
      rw [List.getLast?_eq_head?_reverse, hr]
      rfl
    refine ⟨?_, ?_, ?_, by simp [hlen]⟩
    · -- next chain of l ++ [b]
      refine Chain.snoc hnext hnd hlastl ?_ ?_ ?_
      · intro a ha hatl
        have hab : a ≠ b := fun he => hb (he ▸ ha)
        rw [nextOf_setNext_ne _ _ _ hatl, nextOf_setPrev, nextOf_setNext_ne _ _ _ hab]
      · rw [nextOf_setNext_self]
      · rw [nextOf_setNext_ne _ _ _ hbtl, nextOf_setPrev, nextOf_setNext_self]
    · -- prev chain of (l ++ [b]).reverse = b :: l.reverse
      rw [List.reverse_append, List.reverse_singleton]
      dsimp only [List.singleton_append]
      refine Chain.cons b l.reverse ?_
      have hpb : prevOf (((m.setNext b none).setPrev b (some tl)).setNext tl (some b)) b
          = some tl := by
        rw [prevOf_setNext, prevOf_setPrev_self]
      rw [hpb]
      refine Chain.congr hprev ?_
      intro a ha
      have hab : a ≠ b := fun he => hb (he ▸ List.mem_reverse.mp ha)
      rw [prevOf_setNext, prevOf_setPrev_ne _ _ _ hab, prevOf_setNext]
    · rw [List.nodup_append]
      exact ⟨hnd, List.nodup_singleton b,
        fun x hx hxb => hb ((List.mem_singleton.mp hxb) ▸ hx)⟩

/-- `pop_front` returns the head of the represented list and leaves the
tail represented. -/
theorem pop_front_rep {m : Mem} {s : FreeBlockList} {l : List Nat}
    (hrep : ListRep m s l) :
    (FreeBlockList.pop_front m s).1 = l.head? ∧
    ListRep (FreeBlockList.pop_front m s).2.1 (FreeBlockList.pop_front m s).2.2 l.tail := by
  obtain ⟨hnext, hprev, hnd, hlen⟩ := hrep
  unfold FreeBlockList.pop_front
  cases hh : s.head with
  | none =>
    dsimp only
    have hl : l = [] := by
      rw [hh] at hnext
      exact hnext.none_inv
    subst hl
    exact ⟨rfl, ⟨hnext, hprev, hnd, hlen⟩⟩
  | some nd =>
    dsimp only
    rw [hh] at hnext
    obtain ⟨l₂, hl, hc₂⟩ := hnext.some_inv
    subst hl
    have hc₂' : Chain (nextOf m) ((m nd).next) l₂ := hc₂
    cases hnd2 : (m nd).next with
    | none =>
      dsimp only
      have hl₂ : l₂ = [] := by
        rw [hnd2] at hc₂'
        exact hc₂'.none_inv
      subst hl₂
      exact ⟨rfl, Chain.nil, Chain.nil, List.nodup_nil, by simp [hlen]⟩
    | some h2 =>
      dsimp only
      rw [hnd2] at hc₂'
      obtain ⟨l₃, hl₃, _⟩ := hc₂'.some_inv
      refine ⟨rfl, ?_, ?_, (List.nodup_cons.mp hnd).2, by simp [hlen]⟩
      · -- next chain of l₂ from the new head h2
        refine Chain.congr hc₂' ?_
        intro a _
        rw [nextOf_setPrev]
      · -- prev chain of l₂.reverse from the old tail
        have hrev : (nd :: l₂).reverse = l₂.reverse ++ [nd] := List.reverse_cons nd l₂
        rw [hrev] at hprev
        have hlast2 : l₂.reverse.getLast? = some h2 := by
          rw [List.getLast?_eq_head?_reverse, List.reverse_reverse, hl₃]
          rfl
        refine Chain.unsnoc hprev ?_ hlast2 ?_ ?_
        · simp only [List.tail_cons, ← List.reverse_cons]
          exact List.nodup_reverse.mpr hnd
        · intro a _ hah2
          rw [prevOf_setPrev_ne _ _ _ hah2]
        · rw [prevOf_setPrev_self]

/-- `pop_back` returns the last element of the represented list and leaves
the rest represented. -/
theorem pop_back_rep {m : Mem} {s : FreeBlockList} {l : List Nat}
    (hrep : ListRep m s l) :
    (FreeBlockList.pop_back m s).1 = l.getLast? ∧
    ListRep (FreeBlockList.pop_back m s).2.1 (FreeBlockList.pop_back m s).2.2 l.dropLast := by
  obtain ⟨hnext, hprev, hnd, hlen⟩ := hrep
  unfold FreeBlockList.pop_back
  cases hh : s.tail with
  | none =>
    dsimp only
    have hl : l = [] := by
      rw [hh] at hprev
      have := hprev.none_inv
      simpa using this
    subst hl
    exact ⟨rfl, ⟨hnext, hprev, hnd, hlen⟩⟩
  | some nd =>
    dsimp only
    rw [hh] at hprev
    obtain ⟨r₂, hr, hc₂⟩ := hprev.some_inv
    have hl_eq : l = r₂.reverse ++ [nd] := by
      have := congrArg List.reverse hr
      rwa [List.reverse_reverse, List.reverse_cons] at this
    have hlast : l.getLast? = some nd := by
      rw [hl_eq]
      exact List.getLast?_concat _
    have hc₂' : Chain (prevOf m) ((m nd).prev) r₂ := hc₂
    cases hnd2 : (m nd).prev with
    | none =>
      dsimp only
      have hr₂ : r₂ = [] := by
        rw [hnd2] at hc₂'
        exact hc₂'.none_inv
      subst hr₂
      have hl1 : l = [nd] := by simpa using hl_eq
      subst hl1
      exact ⟨rfl, Chain.nil, Chain.nil, List.nodup_nil, by simp [hlen]⟩
    | some t2 =>
      dsimp only
      rw [hnd2] at hc₂'
      obtain ⟨r₃, hr₃, _⟩ := hc₂'.some_inv
      have hdrop : l.dropLast = r₂.reverse := by
        rw [hl_eq]
        simp
      have hlast₀ : r₂.reverse.getLast? = some t2 := by
        rw [List.getLast?_eq_head?_reverse, List.reverse_reverse, hr₃]
        rfl
      refine ⟨by rw [hlast], ?_, ?_, ?_, ?_⟩
      · -- next chain of l.dropLast from the unchanged head
        rw [hdrop]
        rw [hl_eq] at hnext
        have hnd' : (r₂.reverse ++ [nd]).Nodup := hl_eq ▸ hnd
        exact @Chain.unsnoc (nextOf m) (nextOf (m.setNext t2 none)) s.head r₂.reverse nd t2
          hnext hnd' hlast₀ (fun a _ hat2 => nextOf_setNext_ne _ _ _ hat2)
          (nextOf_setNext_self _ _ _)
      · -- prev chain of l.dropLast.reverse = r₂ from the new tail t2
        rw [hdrop, List.reverse_reverse]
        refine Chain.congr hc₂' ?_
        intro a _
        rw [prevOf_setNext]
      · rw [hdrop]
        exact List.Nodup.of_append_left (hl_eq ▸ hnd)
      · rw [hdrop]
        simp [hlen, hl_eq]

/-!
## Fresh lists and iterated pops
-/

theorem foldl_append_singleton {α β : Type} (g : α → β) (L : List α) (init : List β) :
    L.foldl (fun l i => l ++ [g i]) init = init ++ L.map g := by
  induction L generalizing init with
  | nil => simp
  | cons x xs ih => simp [ih]

theorem freeListNew_eq_map (start_addr block_size num_of_blocks : Nat) :
    freeListNew start_addr block_size num_of_blocks
      = (List.range num_of_blocks).map (fun i => start_addr + i * block_size) := by
  unfold freeListNew
  rw [foldl_append_singleton]
  rfl

/-- The address list of a fresh region of `n` blocks. -/
theorem nodup_blocks (start_addr block_size n : Nat) (hB : 0 < block_size) :
    ((List.range n).map (fun i => start_addr + i * block_size)).Nodup := by
  refine List.Nodup.map ?_ (List.nodup_range n)
  intro i j hij
  simp only at hij
  have : i * block_size = j * block_size := by omega
  exact Nat.eq_of_mul_eq_mul_right hB this

/-- `FreeBlockList::new` builds a list representing the block addresses in
increasing index order. -/
theorem new_rep (m : Mem) (start_addr block_size num_of_blocks : Nat) (hB : 0 < block_size) :
    ListRep (FreeBlockList.new m start_addr block_size num_of_blocks).1
      (FreeBlockList.new m start_addr block_size num_of_blocks).2
      ((List.range num_of_blocks).map (fun i => start_addr + i * block_size)) := by
  induction num_of_blocks with
  | zero => exact new_empty_rep m
  | succ n ih =>
    have hfold : FreeBlockList.new m start_addr block_size (n + 1)
        = FreeBlockList.push_back (FreeBlockList.new m start_addr block_size n).1
            (FreeBlockList.new m start_addr block_size n).2 (start_addr + n * block_size) := by
      unfold FreeBlockList.new
      rw [List.range_succ, List.foldl_append]
      rfl
    have hmap : (List.range (n + 1)).map (fun i => start_addr + i * block_size)
        = (List.range n).map (fun i => start_addr + i * block_size)
            ++ [start_addr + n * block_size] := by
      rw [List.range_succ, List.map_append]
      rfl
    have hnotin : start_addr + n * block_size
        ∉ (List.range n).map (fun i => start_addr + i * block_size) := by
      intro hmem
      obtain ⟨i, hi, he⟩ := List.mem_map.mp hmem
      have hi' : i < n := List.mem_range.mp hi
      have : i * block_size = n * block_size := by omega
      have : i = n := Nat.eq_of_mul_eq_mul_right hB this
      omega
    rw [hfold, hmap]
    exact push_back_rep ih hnotin

/-- Iterated `pop_front` returns the elements of the represented list in
order. -/
theorem popN_eq {m : Mem} {s : FreeBlockList} {l : List Nat}
    (hrep : ListRep m s l) (k : Nat) :
    FreeBlockList.popN m s k = l[k]? := by
  induction k generalizing m s l with
  | zero =>
    have := (pop_front_rep hrep).1
    unfold FreeBlockList.popN
    rw [this, List.head?_eq_getElem?]
  | succ k ih =>
    unfold FreeBlockList.popN
    have := (pop_front_rep hrep).2
    rw [ih this, List.getElem?_tail]

/-!
## Consequences of the invariant
-/

theorem listRep_len_head {m : Mem} {s : FreeBlockList} {l : List Nat}
    (hrep : ListRep m s l) :
    s.len = l.length ∧ (s.head = none ↔ s.len = 0) := by
  obtain ⟨hnext, _, _, hlen⟩ := hrep
  refine ⟨hlen, ?_, ?_⟩
  · intro hh
    rw [hh] at hnext
    rw [hlen, hnext.none_inv]
    rfl
  · intro h0
    rw [hlen] at h0
    have : l = [] := List.length_eq_zero.mp h0
    rw [this] at hnext
    exact hnext.nil_inv

/-!
## Functional slab lemmas
-/

theorem Slab.allocate_result (s : Slab) (layout : Layout) :
    (s.allocate layout).1
      = (match s.free_block_list.head? with
         | some b => Except.ok b
         | none => Except.error (AllocErr.Exhausted layout)) ∧
    (s.allocate layout).2.free_block_list = s.free_block_list.tail ∧
    (s.allocate layout).2.start_addr = s.start_addr ∧
    (s.allocate layout).2.slab_size = s.slab_size ∧
    (s.allocate layout).2.block_size = s.block_size := by
  unfold Slab.allocate
  cases hl : s.free_block_list with
  | nil => exact ⟨rfl, by simpa using hl, rfl, rfl, rfl⟩
  | cons b rest => exact ⟨rfl, rfl, rfl, rfl, rfl⟩

/-- Pop, push the popped block back, pop again: the same block comes back
and the slab returns to its intermediate state. -/
theorem slab_lifo {s s' : Slab} {layout : Layout} {p : Nat}
    (h : s.allocate layout = (Except.ok p, s')) :
    (s'.deallocate p).allocate layout = (Except.ok p, s') := by
  unfold Slab.allocate at h ⊢
  cases hl : s.free_block_list with
  | nil =>
    rw [hl] at h
    exact absurd (congrArg Prod.fst h) (by simp)
  | cons b rest =>
    rw [hl] at h
    have hb : b = p := by
      have := congrArg Prod.fst h
      simpa using this
    have hs' : s' = { s with free_block_list := rest } := by
      have := congrArg Prod.snd h
      simpa using this.symm
    subst hb hs'
    rfl

/-- Iterated allocation from a slab walks its free list in order. -/
theorem Slab.allocateN_eq (s : Slab) (layout : Layout) (k : Nat) :
    s.allocateN layout k
      = (match s.free_block_list[k]? with
         | some b => Except.ok b
         | none => Except.error (AllocErr.Exhausted layout)) := by
  induction k generalizing s with
  | zero =>
    unfold Slab.allocateN
    rw [(Slab.allocate_result s layout).1, List.head?_eq_getElem?]
  | succ k ih =>
    unfold Slab.allocateN
    rw [ih]
    have ht := (Slab.allocate_result s layout).2.1
    rw [ht, List.getElem?_tail]

/-!
## Classification lemmas
-/

/-- The source cascade computes exactly the spec's decision table. -/
theorem layout_to_allocator_eq_choose_spec (layout : Layout) :
    layout_to_allocator layout = choose_spec layout := by
  unfold layout_to_allocator choose_spec cascadeBlockSizes
  by_cases h0 : layout.size > 4096
  · rw [if_pos h0, if_pos h0]
  · rw [if_neg h0, if_neg h0]
    by_cases h1 : layout.size ≤ 64 ∧ layout.align ≤ 64
    · rw [if_pos h1, List.find?_cons_of_pos _ (by simp [h1.1, h1.2])]
      rfl
    · rw [if_neg h1, List.find?_cons_of_neg _ (by simpa using h1)]
      by_cases h2 : layout.size ≤ 128 ∧ layout.align ≤ 128
      · rw [if_pos h2, List.find?_cons_of_pos _ (by simp [h2.1, h2.2])]
        rfl
      · rw [if_neg h2, List.find?_cons_of_neg _ (by simpa using h2)]
        by_cases h3 : layout.size ≤ 256 ∧ layout.align ≤ 256
        · rw [if_pos h3, List.find?_cons_of_pos _ (by simp [h3.1, h3.2])]
          rfl
        · rw [if_neg h3, List.find?_cons_of_neg _ (by simpa using h3)]
          by_cases h4 : layout.size ≤ 512 ∧ layout.align ≤ 512
          · rw [if_pos h4, List.find?_cons_of_pos _ (by simp [h4.1, h4.2])]
            rfl
          · rw [if_neg h4, List.find?_cons_of_neg _ (by simpa using h4)]
            by_cases h5 : layout.size ≤ 1024 ∧ layout.align ≤ 1024
            · rw [if_pos h5, List.find?_cons_of_pos _ (by simp [h5.1, h5.2])]
              rfl
            · rw [if_neg h5, List.find?_cons_of_neg _ (by simpa using h5)]
              by_cases h6 : layout.size ≤ 2048 ∧ layout.align ≤ 2048
              · rw [if_pos h6, List.find?_cons_of_pos _ (by simp [h6.1, h6.2])]
                rfl
              · rw [if_neg h6, List.find?_cons_of_neg _ (by simpa using h6)]
                rfl

/-- The linked-list allocator is chosen exactly for sizes above 4096. -/
theorem lta_linked_list_iff (layout : Layout) :
    layout_to_allocator layout = HeapAllocator.LinkedListAllocator ↔ layout.size > 4096 := by
  unfold layout_to_allocator
  split_ifs with h0 h1 h2 h3 h4 h5 h6 <;> simp_all

/-- Whenever the size is at most 4096 (so a slab is chosen), the request's
size fits the chosen slab's block size. -/
theorem lta_size_le_blockSize (layout : Layout) (h : layout.size ≤ 4096) :
    layout.size ≤ blockSize (layout_to_allocator layout) := by
  unfold layout_to_allocator
  split_ifs with h0 h1 h2 h3 h4 h5 h6 <;> simp [blockSize] <;> omega

/-!
## Heap dispatch and fresh-heap lemmas
-/

theorem Heap.allocate_eq_at (h : Heap) (layout : Layout) :
    Heap.allocate h layout = Heap.allocate_at h (layout_to_allocator layout) layout := by
  unfold Heap.allocate Heap.allocate_at
  cases layout_to_allocator layout <;> rfl

theorem Heap.deallocate_eq_at (h : Heap) (ptr : Nat) (layout : Layout) :
    Heap.deallocate h ptr layout = Heap.deallocate_at h (layout_to_allocator layout) ptr layout := by
  unfold Heap.deallocate Heap.deallocate_at
  cases layout_to_allocator layout <;> rfl

theorem Heap.usable_size_eq_at (layout : Layout) :
    Heap.usable_size layout = usable_size_at (layout_to_allocator layout) layout := by
  unfold Heap.usable_size usable_size_at
  cases layout_to_allocator layout <;> rfl

theorem le_alignUp (a align : Nat) (h : 0 < align) : a ≤ alignUp a align := by
  unfold alignUp
  rw [Nat.mul_comm]
  have hdm := Nat.div_add_mod (a + align - 1) align
  have hlt := Nat.mod_lt (a + align - 1) h
  omega

/-- A first-fit scan over a single extent shorter than the request fails. -/
theorem llFirstFit_single_none (layout : Layout) (s l : Nat) (halign : 0 < layout.align)
    (hsize : l < layout.size) : llFirstFit layout [(s, l)] = none := by
  unfold llFirstFit
  have ha := le_alignUp s layout.align halign
  rw [if_neg (by omega)]
  rfl

/-- A fresh slab's first free block is the slab's start address. -/
theorem Slab.new_head (st sz B : Nat) (hB : 0 < B) (hsz : B ≤ sz) :
    (Slab.new st sz B).free_block_list.head? = some st := by
  unfold Slab.new
  rw [freeListNew_eq_map]
  have hn : 0 < sz / B := Nat.div_pos hsz hB
  cases hsz2 : sz / B with
  | zero => omega
  | succ n =>
    rw [List.range_succ_eq_map]
    simp

/-- A power of two that is at most 4096 divides 4096. -/
theorem pow2_dvd_4096 (a k : Nat) (ha : a = 2 ^ k) (hle : a ≤ 4096) : a ∣ 4096 := by
  subst ha
  have hk : k ≤ 12 := by
    by_contra hgt
    have h13 : (2 : Nat) ^ 13 ≤ 2 ^ k := Nat.pow_le_pow_right (by norm_num) (by omega)
    have : (2 : Nat) ^ 13 = 8192 := by norm_num
    omega
  have : (2 : Nat) ^ k ∣ 2 ^ 12 := Nat.pow_dvd_pow 2 hk
  simpa using this

/-!
## Claim theorems
-/

/-- C1: for every layout, `Heap::allocate`, `Heap::deallocate` and
`Heap::usable_size` dispatch to the sub-allocator given by the first
matching row of the decision table: size > 4096 goes to the linked-list
allocator; otherwise the first slab among 64 … 2048 whose block size is ≥
both size and align; otherwise Slab4096. -/
theorem C1_classification_table (layout : Layout) :
    layout_to_allocator layout = choose_spec layout ∧
    (∀ h : Heap, Heap.allocate h layout = Heap.allocate_at h (choose_spec layout) layout) ∧
    (∀ (h : Heap) (ptr : Nat),
        Heap.deallocate h ptr layout = Heap.deallocate_at h (choose_spec layout) ptr layout) ∧
    Heap.usable_size layout = usable_size_at (choose_spec layout) layout := by
  have he := layout_to_allocator_eq_choose_spec layout
  exact ⟨he, fun h => he ▸ Heap.allocate_eq_at h layout,
    fun h ptr => he ▸ Heap.deallocate_eq_at h ptr layout,
    he ▸ Heap.usable_size_eq_at layout⟩

/-- C3 (code bug): `Heap::new` is supposed to build the large-block
allocator over the eighth sub-region at `start + 7 * (len / 8)`, but the
source converts that address to `u8` with `try_into().unwrap()`, which
panics for every input that passes the construction assertions; the
construction with the truncation removed (spec §9.1) does place the
linked-list allocator at `start + 7 * (len / 8)` with length `len / 8`. -/
theorem C3_heap_new_truncation (heap_start_addr heap_size : Nat) :
    Heap.newSrc heap_start_addr heap_size = none ∧
    (Heap.new_intended heap_start_addr heap_size).linked_list_allocator
      = LinkedListHeap.new (heap_start_addr + 7 * (heap_size / 8)) (heap_size / 8) := by
  constructor
  · unfold Heap.newSrc
    split_ifs with ha hb hc
    · rfl
    · rfl
    · rfl
    · have hmin : MIN_HEAP_SIZE = 32768 := by norm_num [MIN_HEAP_SIZE, NUM_OF_SLABS, MIN_SLAB_SIZE]
      rw [hmin] at hb
      have hbot : heapBottomU8 heap_start_addr heap_size = none := by
        unfold heapBottomU8 NUM_OF_SLABS
        rw [if_neg (by omega)]
      rw [hbot]
  · rfl

/-- C8: `Heap::usable_size(L)` returns `(L.size, B)` where `B` is the block
size of the slab chosen by the classification of `L`, and `(L.size, L.size)`
when `L` is classified to the linked-list allocator; the first component
always equals `L.size` and the second is always ≥ `L.size`. -/
theorem C8_usable_size (L : Layout) :
    Heap.usable_size L
      = (L.size,
         match choose_spec L with
         | HeapAllocator.LinkedListAllocator => L.size
         | a => blockSize a) ∧
    (Heap.usable_size L).1 = L.size ∧ L.size ≤ (Heap.usable_size L).2 := by
  have he := layout_to_allocator_eq_choose_spec L
  refine ⟨?_, ?_, ?_⟩
  · unfold Heap.usable_size
    rw [← he]
    cases layout_to_allocator L <;> rfl
  · unfold Heap.usable_size
    cases layout_to_allocator L <;> rfl
  · by_cases hs : L.size ≤ 4096
    · have hb := lta_size_le_blockSize L hs
      unfold Heap.usable_size
      cases hc : layout_to_allocator L <;> rw [hc] at hb <;> simp_all [blockSize]
    · have hll : layout_to_allocator L = HeapAllocator.LinkedListAllocator :=
        (lta_linked_list_iff L).mpr (by omega)
      unfold Heap.usable_size
      rw [hll]

/-- C10: `Heap::grow` with the linked-list selector ignores the
`mem_start_addr` argument entirely (only `mem_size` reaches `extend`), and
for every selector `grow` modifies only the selected sub-allocator, leaving
the other seven unchanged. -/
theorem C10_grow_frame :
    (∀ (h : Heap) (a a' sz : Nat),
        Heap.grow h a sz HeapAllocator.LinkedListAllocator
          = Heap.grow h a' sz HeapAllocator.LinkedListAllocator) ∧
    (∀ (h : Heap) (a sz : Nat) (sel sel' : HeapAllocator), sel' ≠ sel →
        Heap.subAlloc (Heap.grow h a sz sel) sel' = Heap.subAlloc h sel') := by
  constructor
  · intro h a a' sz
    rfl
  · intro h a sz sel sel' hne
    cases sel <;> cases sel' <;> first | rfl | exact absurd rfl hne

/-- Witness for C10 at a concrete heap and selector pair. -/
theorem C10_grow_frame_witness :
    HeapAllocator.Slab128Bytes ≠ HeapAllocator.Slab64Bytes ∧
    Heap.subAlloc
        (Heap.grow (Heap.new_intended 4096 32768) 0 4096 HeapAllocator.Slab64Bytes)
        HeapAllocator.Slab128Bytes
      = Heap.subAlloc (Heap.new_intended 4096 32768) HeapAllocator.Slab128Bytes :=
  ⟨by decide,
   C10_grow_frame.2 (Heap.new_intended 4096 32768) 0 4096
     HeapAllocator.Slab64Bytes HeapAllocator.Slab128Bytes (by decide)⟩

/-- C5: for every heap state and every slab-served layout `L`, if
`allocate(L)` succeeds with pointer `p`, then after `deallocate(p, L)` the
next `allocate(L)` returns exactly `p` again (LIFO reuse). -/
theorem C5_lifo_reuse (h h' : Heap) (L : Layout) (p : Nat)
    (hslab : layout_to_allocator L ≠ HeapAllocator.LinkedListAllocator)
    (halloc : Heap.allocate h L = (Except.ok p, h')) :
    (Heap.allocate (Heap.deallocate h' p L) L).1 = Except.ok p := by
  cases hc : layout_to_allocator L
  case LinkedListAllocator => exact absurd hc hslab
  case Slab64Bytes =>
    simp only [Heap.allocate, Heap.deallocate, hc] at halloc ⊢
    have h1 : (h.slab_64_bytes.allocate L).1 = Except.ok p := by
      have := congrArg Prod.fst halloc
      simpa using this
    have h2 : h' = { h with slab_64_bytes := (h.slab_64_bytes.allocate L).2 } := by
      have := congrArg Prod.snd halloc
      simpa using this.symm
    subst h2
    have hpair : h.slab_64_bytes.allocate L
        = (Except.ok p, (h.slab_64_bytes.allocate L).2) := by
      rw [← h1]
    have hfin := slab_lifo hpair
    dsimp only
    simpa using congrArg Prod.fst hfin
  case Slab128Bytes =>
    simp only [Heap.allocate, Heap.deallocate, hc] at halloc ⊢
    have h1 : (h.slab_128_bytes.allocate L).1 = Except.ok p := by
      have := congrArg Prod.fst halloc
      simpa using this
    have h2 : h' = { h with slab_128_bytes := (h.slab_128_bytes.allocate L).2 } := by
      have := congrArg Prod.snd halloc
      simpa using this.symm
    subst h2
    have hpair : h.slab_128_bytes.allocate L
        = (Except.ok p, (h.slab_128_bytes.allocate L).2) := by
      rw [← h1]
    have hfin := slab_lifo hpair
    dsimp only
    simpa using congrArg Prod.fst hfin
  case Slab256Bytes =>
    simp only [Heap.allocate, Heap.deallocate, hc] at halloc ⊢
    have h1 : (h.slab_256_bytes.allocate L).1 = Except.ok p := by
      have := congrArg Prod.fst halloc
      simpa using this
    have h2 : h' = { h with slab_256_bytes := (h.slab_256_bytes.allocate L).2 } := by
      have := congrArg Prod.snd halloc
      simpa using this.symm
    subst h2
    have hpair : h.slab_256_bytes.allocate L
        = (Except.ok p, (h.slab_256_bytes.allocate L).2) := by
      rw [← h1]
    have hfin := slab_lifo hpair
    dsimp only
    simpa using congrArg Prod.fst hfin
  case Slab512Bytes =>
    simp only [Heap.allocate, Heap.deallocate, hc] at halloc ⊢
    have h1 : (h.slab_512_bytes.allocate L).1 = Except.ok p := by
      have := congrArg Prod.fst halloc
      simpa using this
    have h2 : h' = { h with slab_512_bytes := (h.slab_512_bytes.allocate L).2 } := by
      have := congrArg Prod.snd halloc
      simpa using this.symm
    subst h2
    have hpair : h.slab_512_bytes.allocate L
        = (Except.ok p, (h.slab_512_bytes.allocate L).2) := by
      rw [← h1]
    have hfin := slab_lifo hpair
    dsimp only
    simpa using congrArg Prod.fst hfin
  case Slab1024Bytes =>
    simp only [Heap.allocate, Heap.deallocate, hc] at halloc ⊢
    have h1 : (h.slab_1024_bytes.allocate L).1 = Except.ok p := by
      have := congrArg Prod.fst halloc
      simpa using this
    have h2 : h' = { h with slab_1024_bytes := (h.slab_1024_bytes.allocate L).2 } := by
      have := congrArg Prod.snd halloc
      simpa using this.symm
    subst h2
    have hpair : h.slab_1024_bytes.allocate L
        = (Except.ok p, (h.slab_1024_bytes.allocate L).2) := by
      rw [← h1]
    have hfin := slab_lifo hpair
    dsimp only
    simpa using congrArg Prod.fst hfin
  case Slab2048Bytes =>
    simp only [Heap.allocate, Heap.deallocate, hc] at halloc ⊢
    have h1 : (h.slab_2048_bytes.allocate L).1 = Except.ok p := by
      have := congrArg Prod.fst halloc
      simpa using this
    have h2 : h' = { h with slab_2048_bytes := (h.slab_2048_bytes.allocate L).2 } := by
      have := congrArg Prod.snd halloc
      simpa using this.symm
    subst h2
    have hpair : h.slab_2048_bytes.allocate L
        = (Except.ok p, (h.slab_2048_bytes.allocate L).2) := by
      rw [← h1]
    have hfin := slab_lifo hpair
    dsimp only
    simpa using congrArg Prod.fst hfin
  case Slab4096Bytes =>
    simp only [Heap.allocate, Heap.deallocate, hc] at halloc ⊢
    have h1 : (h.slab_4096_bytes.allocate L).1 = Except.ok p := by
      have := congrArg Prod.fst halloc
      simpa using this
    have h2 : h' = { h with slab_4096_bytes := (h.slab_4096_bytes.allocate L).2 } := by
      have := congrArg Prod.snd halloc
      simpa using this.symm
    subst h2
    have hpair : h.slab_4096_bytes.allocate L
        = (Except.ok p, (h.slab_4096_bytes.allocate L).2) := by
      rw [← h1]
    have hfin := slab_lifo hpair
    dsimp only
    simpa using congrArg Prod.fst hfin

/-- Witness for C5: on a fresh heap, `allocate(16, 8)` returns the heap
start, and after deallocating it the next identical allocation returns the
same pointer. -/
theorem C5_lifo_reuse_witness :
    (Heap.allocate
        (Heap.deallocate
          (Heap.allocate (Heap.new_intended 4096 32768) { size := 16, align := 8 }).2
          4096 { size := 16, align := 8 })
        { size := 16, align := 8 }).1 = Except.ok 4096 :=
  C5_lifo_reuse (Heap.new_intended 4096 32768)
    (Heap.allocate (Heap.new_intended 4096 32768) { size := 16, align := 8 }).2
    { size := 16, align := 8 } 4096 (by decide) rfl

/-- C7: when the sub-allocator chosen for a layout is exhausted,
`Heap::allocate` returns that sub-allocator's error unchanged
(`AllocErr::Exhausted` with the request, or `AllocError` for the linked-list
allocator, whose error the source maps) and leaves the whole heap state
unchanged; it never retries the request against any other slab — the heap
here is arbitrary, so the other slabs may have any number of free blocks. -/
theorem C7_no_cross_slab_fallback (h : Heap) (L : Layout) :
    (∀ s : Slab, Heap.subAlloc h (layout_to_allocator L) = Sum.inl s →
        s.free_block_list = [] →
        Heap.allocate h L = (Except.error (AllocErr.Exhausted L), h)) ∧
    (layout_to_allocator L = HeapAllocator.LinkedListAllocator →
        llFirstFit L h.linked_list_allocator.extents = none →
        Heap.allocate h L = (Except.error AllocErr.AllocError, h)) := by
  constructor
  · intro s hs hempty
    cases hc : layout_to_allocator L
    case LinkedListAllocator =>
      rw [hc] at hs
      exact absurd hs (by simp [Heap.subAlloc])
    case Slab64Bytes =>
      rw [hc] at hs
      have hss : h.slab_64_bytes = s := by simpa [Heap.subAlloc] using hs
      simp only [Heap.allocate, hc, Slab.allocate, hss, hempty]
      rw [← hss]
    case Slab128Bytes =>
      rw [hc] at hs
      have hss : h.slab_128_bytes = s := by simpa [Heap.subAlloc] using hs
      simp only [Heap.allocate, hc, Slab.allocate, hss, hempty]
      rw [← hss]
    case Slab256Bytes =>
      rw [hc] at hs
      have hss : h.slab_256_bytes = s := by simpa [Heap.subAlloc] using hs
      simp only [Heap.allocate, hc, Slab.allocate, hss, hempty]
      rw [← hss]
    case Slab512Bytes =>
      rw [hc] at hs
      have hss : h.slab_512_bytes = s := by simpa [Heap.subAlloc] using hs
      simp only [Heap.allocate, hc, Slab.allocate, hss, hempty]
      rw [← hss]
    case Slab1024Bytes =>
      rw [hc] at hs
      have hss : h.slab_1024_bytes = s := by simpa [Heap.subAlloc] using hs
      simp only [Heap.allocate, hc, Slab.allocate, hss, hempty]
      rw [← hss]
    case Slab2048Bytes =>
      rw [hc] at hs
      have hss : h.slab_2048_bytes = s := by simpa [Heap.subAlloc] using hs
      simp only [Heap.allocate, hc, Slab.allocate, hss, hempty]
      rw [← hss]
    case Slab4096Bytes =>
      rw [hc] at hs
      have hss : h.slab_4096_bytes = s := by simpa [Heap.subAlloc] using hs
      simp only [Heap.allocate, hc, Slab.allocate, hss, hempty]
      rw [← hss]
  · intro hc hnone
    simp only [Heap.allocate, hc, LinkedListHeap.allocate_first_fit, hnone]

/-- Witness for C7: after 32 allocations of `(96, 8)` the chosen Slab128 (32
blocks of 128 bytes in its 4096-byte region) is exhausted, so the 33rd
request fails and leaves the heap unchanged, even though Slab256 still has
free blocks. -/
theorem C7_no_cross_slab_fallback_witness :
    (Heap.allocN (Heap.new_intended 4096 32768) { size := 96, align := 8 } 32).slab_256_bytes.free_block_list
      ≠ [] ∧
    Heap.allocate (Heap.allocN (Heap.new_intended 4096 32768) { size := 96, align := 8 } 32)
        { size := 96, align := 8 }
      = (Except.error (AllocErr.Exhausted { size := 96, align := 8 }),
         Heap.allocN (Heap.new_intended 4096 32768) { size := 96, align := 8 } 32) :=
  ⟨by decide,
   (C7_no_cross_slab_fallback
       (Heap.allocN (Heap.new_intended 4096 32768) { size := 96, align := 8 } 32)
       { size := 96, align := 8 }).1
     (Heap.allocN (Heap.new_intended 4096 32768) { size := 96, align := 8 } 32).slab_128_bytes
     rfl (by decide)⟩

/-- C6: a slab freshly constructed over a region of `n` blocks of size `B`
starting at `start_addr` hands out addresses in increasing order: the `k`-th
pop of the intrusive free-block list (and equally the `k`-th `Slab::allocate`)
returns exactly `start_addr + k * B`, so the first allocation returns the
lowest address and each successive one is `B` bytes higher. -/
theorem C6_fresh_slab_sequential :
    (∀ (m : Mem) (start_addr block_size num_of_blocks k : Nat),
        0 < block_size → k < num_of_blocks →
        FreeBlockList.popN (FreeBlockList.new m start_addr block_size num_of_blocks).1
            (FreeBlockList.new m start_addr block_size num_of_blocks).2 k
          = some (start_addr + k * block_size)) ∧
    (∀ (start_addr block_size num_of_blocks k : Nat) (layout : Layout),
        0 < block_size → k < num_of_blocks →
        Slab.allocateN (Slab.new start_addr (num_of_blocks * block_size) block_size) layout k
          = Except.ok (start_addr + k * block_size)) := by
  constructor
  · intro m st B n k hB hk
    rw [popN_eq (new_rep m st B n hB) k]
    simp [List.getElem?_map, List.getElem?_range, hk]
  · intro st B n k layout hB hk
    rw [Slab.allocateN_eq]
    unfold Slab.new
    rw [freeListNew_eq_map, Nat.mul_div_cancel n hB]
    simp [List.getElem?_map, List.getElem?_range, hk]

/-- Witness for C6: a fresh 4-block slab of 64-byte blocks at 4096 returns
`4096 + 2*64` on its third pop / third allocation. -/
theorem C6_fresh_slab_sequential_witness :
    FreeBlockList.popN (FreeBlockList.new mem0 4096 64 4).1
        (FreeBlockList.new mem0 4096 64 4).2 2 = some (4096 + 2 * 64) ∧
    Slab.allocateN (Slab.new 4096 (4 * 64) 64) { size := 16, align := 8 } 2
      = Except.ok (4096 + 2 * 64) :=
  ⟨C6_fresh_slab_sequential.1 mem0 4096 64 4 2 (by decide) (by decide),
   C6_fresh_slab_sequential.2 4096 64 4 2 { size := 16, align := 8 } (by decide) (by decide)⟩

/-- Counterexample to C4: `(size=24, align=64)` satisfies the Slab64 row of
the decision table (`24 ≤ 64 ∧ 64 ≤ 64`), so on a fresh heap at 4096 the
call `z = allocate(24, 64)` after `allocate(16,8)` and `allocate(24,8)` is
served by Slab64 — the result is `4096 + 128`, inside Slab64's region and
produced by mutating `slab_64_bytes`, not Slab512, whose state is untouched
by the whole sequence. -/
theorem C4_counterexample :
    layout_to_allocator { size := 24, align := 64 } = HeapAllocator.Slab64Bytes ∧
    layout_to_allocator { size := 24, align := 64 } ≠ HeapAllocator.Slab512Bytes ∧
    ((((Heap.new_intended 4096 32768).allocate { size := 16, align := 8 }).2.allocate
          { size := 24, align := 8 }).2.allocate { size := 24, align := 64 }).1
      = Except.ok 4224 ∧
    ((((Heap.new_intended 4096 32768).allocate { size := 16, align := 8 }).2.allocate
          { size := 24, align := 8 }).2.allocate { size := 24, align := 64 }).2.slab_512_bytes
      = (Heap.new_intended 4096 32768).slab_512_bytes ∧
    ((((Heap.new_intended 4096 32768).allocate { size := 16, align := 8 }).2.allocate
          { size := 24, align := 8 }).2.allocate { size := 24, align := 64 }).2.slab_64_bytes
      ≠ ((((Heap.new_intended 4096 32768).allocate { size := 16, align := 8 }).2.allocate
          { size := 24, align := 8 }).2).slab_64_bytes ∧
    4096 ≤ 4224 ∧ 4224 < 4096 + 4096 := by
  refine ⟨rfl, by decide, rfl, rfl, by decide, by decide, by decide⟩

/-- C4 (amended): on a fresh heap at page-aligned `start`, after
`x = allocate(16, 8)` and `y = allocate(24, 8)`, the call
`z = allocate(24, 64)` is served by Slab64 (whose block size 64 already
meets the alignment 64 — not Slab512 as the claim says), and returns
`z = start + 128` with `z % 64 == 0`. -/
theorem C4_amended (start : Nat) (hstart : start % 4096 = 0) :
    layout_to_allocator { size := 24, align := 64 } = HeapAllocator.Slab64Bytes ∧
    ((((Heap.new_intended start MIN_HEAP_SIZE).allocate { size := 16, align := 8 }).2.allocate
          { size := 24, align := 8 }).2.allocate { size := 24, align := 64 }).1
      = Except.ok (start + 128) ∧
    (start + 128) % 64 = 0 := by
  refine ⟨rfl, ?_, by omega⟩
  have e1 : layout_to_allocator { size := 16, align := 8 } = HeapAllocator.Slab64Bytes := rfl
  have e2 : layout_to_allocator { size := 24, align := 8 } = HeapAllocator.Slab64Bytes := rfl
  have e3 : layout_to_allocator { size := 24, align := 64 } = HeapAllocator.Slab64Bytes := rfl
  simp only [Heap.allocate, e1, e2, e3]
  have hS0 : (Heap.new_intended start MIN_HEAP_SIZE).slab_64_bytes = Slab.new start 4096 64 := rfl
  rw [hS0]
  have l0 : (Slab.new start 4096 64).free_block_list
      = (List.range 64).map (fun i => start + i * 64) := by
    unfold Slab.new
    rw [freeListNew_eq_map]
  have a1 := (Slab.allocate_result (Slab.new start 4096 64) { size := 16, align := 8 }).2.1
  have a2 := (Slab.allocate_result ((Slab.new start 4096 64).allocate { size := 16, align := 8 }).2
    { size := 24, align := 8 }).2.1
  have a3 := (Slab.allocate_result
    (((Slab.new start 4096 64).allocate { size := 16, align := 8 }).2.allocate
      { size := 24, align := 8 }).2 { size := 24, align := 64 }).1
  rw [a3, a2, a1, l0]
  rw [List.head?_eq_getElem?, List.getElem?_tail, List.getElem?_tail]
  simp [List.getElem?_map, List.getElem?_range]

/-- Witness for C4 (amended) at the concrete page-aligned start 4096. -/
theorem C4_amended_witness :
    4096 % 4096 = 0 ∧
    (layout_to_allocator { size := 24, align := 64 } = HeapAllocator.Slab64Bytes ∧
     ((((Heap.new_intended 4096 MIN_HEAP_SIZE).allocate { size := 16, align := 8 }).2.allocate
           { size := 24, align := 8 }).2.allocate { size := 24, align := 64 }).1
       = Except.ok (4096 + 128) ∧
     (4096 + 128) % 64 = 0) :=
  ⟨by decide, C4_amended 4096 (by decide)⟩

/-- C2 (amended): for every layout `L` with `L.size ≤ MIN_HEAP_SIZE`,
`L.align` a power of two and `L.align ≤ 4096`, a successful `allocate(L)` on
a fresh heap of size `MIN_HEAP_SIZE` returns a pointer `p` with
`p % L.align == 0` (failure is a single deterministic value since the model
is a function).  The claim's extra case `L.align > 4096` is false — see the
counterexample: such layouts are routed to Slab4096, whose blocks are only
4096-aligned. -/
theorem C2_amended (start : Nat) (L : Layout) (k p : Nat)
    (hstart : start % 4096 = 0) (hsize : L.size ≤ MIN_HEAP_SIZE)
    (halign : L.align = 2 ^ k) (hal : L.align ≤ 4096)
    (hp : (Heap.allocate (Heap.new_intended start MIN_HEAP_SIZE) L).1 = Except.ok p) :
    p % L.align = 0 := by
  have hA2 : 0 < L.align := by
    rw [halign]
    exact Nat.pos_pow_of_pos k (by norm_num)
  have hdvd4096 : L.align ∣ 4096 := pow2_dvd_4096 L.align k halign hal
  have hstart_dvd : L.align ∣ start :=
    dvd_trans hdvd4096 (Nat.dvd_of_mod_eq_zero hstart)
  have haddr : ∀ j : Nat, L.align ∣ (start + j * 4096) := fun j =>
    Nat.dvd_add hstart_dvd (Dvd.dvd.mul_left hdvd4096 j)
  rw [Heap.allocate_eq_at] at hp
  cases hc : layout_to_allocator L
  case LinkedListAllocator =>
    exfalso
    have hsz : L.size > 4096 := (lta_linked_list_iff L).mp hc
    rw [hc] at hp
    simp only [Heap.allocate_at] at hp
    have hll : (Heap.new_intended start MIN_HEAP_SIZE).linked_list_allocator
        = LinkedListHeap.new (start + 7 * 4096) 4096 := rfl
    rw [hll] at hp
    have hnone := llFirstFit_single_none L (start + 7 * 4096) 4096 hA2 (by omega)
    simp only [LinkedListHeap.allocate_first_fit, LinkedListHeap.new, hnone] at hp
    exact Except.noConfusion hp
  case Slab64Bytes =>
    rw [hc] at hp
    simp only [Heap.allocate_at] at hp
    have hS : (Heap.new_intended start MIN_HEAP_SIZE).slab_64_bytes
        = Slab.new (start + 0 * 4096) 4096 64 := rfl
    rw [hS] at hp
    have hhead := (Slab.allocate_result (Slab.new (start + 0 * 4096) 4096 64) L).1
    rw [Slab.new_head (start + 0 * 4096) 4096 64 (by norm_num) (by norm_num)] at hhead
    rw [hhead] at hp
    have hps : p = start + 0 * 4096 := by simpa using hp.symm
    rw [hps]
    exact Nat.dvd_iff_mod_eq_zero.mp (haddr 0)
  case Slab128Bytes =>
    rw [hc] at hp
    simp only [Heap.allocate_at] at hp
    have hS : (Heap.new_intended start MIN_HEAP_SIZE).slab_128_bytes
        = Slab.new (start + 1 * 4096) 4096 128 := rfl
    rw [hS] at hp
    have hhead := (Slab.allocate_result (Slab.new (start + 1 * 4096) 4096 128) L).1
    rw [Slab.new_head (start + 1 * 4096) 4096 128 (by norm_num) (by norm_num)] at hhead
    rw [hhead] at hp
    have hps : p = start + 1 * 4096 := by simpa using hp.symm
    rw [hps]
    exact Nat.dvd_iff_mod_eq_zero.mp (haddr 1)
  case Slab256Bytes =>
    rw [hc] at hp
    simp only [Heap.allocate_at] at hp
    have hS : (Heap.new_intended start MIN_HEAP_SIZE).slab_256_bytes
        = Slab.new (start + 2 * 4096) 4096 256 := rfl
    rw [hS] at hp
    have hhead := (Slab.allocate_result (Slab.new (start + 2 * 4096) 4096 256) L).1
    rw [Slab.new_head (start + 2 * 4096) 4096 256 (by norm_num) (by norm_num)] at hhead
    rw [hhead] at hp
    have hps : p = start + 2 * 4096 := by simpa using hp.symm
    rw [hps]
    exact Nat.dvd_iff_mod_eq_zero.mp (haddr 2)
  case Slab512Bytes =>
    rw [hc] at hp
    simp only [Heap.allocate_at] at hp
    have hS : (Heap.new_intended start MIN_HEAP_SIZE).slab_512_bytes
        = Slab.new (start + 3 * 4096) 4096 512 := rfl
    rw [hS] at hp
    have hhead := (Slab.allocate_result (Slab.new (start + 3 * 4096) 4096 512) L).1
    rw [Slab.new_head (start + 3 * 4096) 4096 512 (by norm_num) (by norm_num)] at hhead
    rw [hhead] at hp
    have hps : p = start + 3 * 4096 := by simpa using hp.symm
    rw [hps]
    exact Nat.dvd_iff_mod_eq_zero.mp (haddr 3)
  case Slab1024Bytes =>
    rw [hc] at hp
    simp only [Heap.allocate_at] at hp
    have hS : (Heap.new_intended start MIN_HEAP_SIZE).slab_1024_bytes
        = Slab.new (start + 4 * 4096) 4096 1024 := rfl
    rw [hS] at hp
    have hhead := (Slab.allocate_result (Slab.new (start + 4 * 4096) 4096 1024) L).1
    rw [Slab.new_head (start + 4 * 4096) 4096 1024 (by norm_num) (by norm_num)] at hhead
    rw [hhead] at hp
    have hps : p = start + 4 * 4096 := by simpa using hp.symm
    rw [hps]
    exact Nat.dvd_iff_mod_eq_zero.mp (haddr 4)
  case Slab2048Bytes =>
    rw [hc] at hp
    simp only [Heap.allocate_at] at hp
    have hS : (Heap.new_intended start MIN_HEAP_SIZE).slab_2048_bytes
        = Slab.new (start + 5 * 4096) 4096 2048 := rfl
    rw [hS] at hp
    have hhead := (Slab.allocate_result (Slab.new (start + 5 * 4096) 4096 2048) L).1
    rw [Slab.new_head (start + 5 * 4096) 4096 2048 (by norm_num) (by norm_num)] at hhead
    rw [hhead] at hp
    have hps : p = start + 5 * 4096 := by simpa using hp.symm
    rw [hps]
    exact Nat.dvd_iff_mod_eq_zero.mp (haddr 5)
  case Slab4096Bytes =>
    rw [hc] at hp
    simp only [Heap.allocate_at] at hp
    have hS : (Heap.new_intended start MIN_HEAP_SIZE).slab_4096_bytes
        = Slab.new (start + 6 * 4096) 4096 4096 := rfl
    rw [hS] at hp
    have hhead := (Slab.allocate_result (Slab.new (start + 6 * 4096) 4096 4096) L).1
    rw [Slab.new_head (start + 6 * 4096) 4096 4096 (by norm_num) (by norm_num)] at hhead
    rw [hhead] at hp
    have hps : p = start + 6 * 4096 := by simpa using hp.symm
    rw [hps]
    exact Nat.dvd_iff_mod_eq_zero.mp (haddr 6)

/-- Counterexample to C2 as stated: the layout `(size=16, align=8192)` has
`size ≤ MIN_HEAP_SIZE` and a power-of-two alignment larger than 4096; on a
fresh heap at the page-aligned start 4096 the allocation *succeeds* with
pointer 28672 (Slab4096's single block), and `28672 % 8192 = 4096 ≠ 0`, so
the promised "success implies aligned" fails for `align > 4096`. -/
theorem C2_counterexample :
    (16 ≤ MIN_HEAP_SIZE) ∧ ((8192 : Nat) = 2 ^ 13) ∧ (4096 % 4096 = 0) ∧
    layout_to_allocator { size := 16, align := 8192 } = HeapAllocator.Slab4096Bytes ∧
    (Heap.allocate (Heap.new_intended 4096 MIN_HEAP_SIZE) { size := 16, align := 8192 }).1
      = Except.ok 28672 ∧
    ¬ 28672 % 8192 = 0 := by
  refine ⟨by decide, by decide, by decide, rfl, rfl, by decide⟩

/-- Witness for C2 (amended) at `start = 4096`, `L = (16, 8)`: the
allocation succeeds with pointer 4096 and `4096 % 8 = 0`. -/
theorem C2_amended_witness : 4096 % 8 = 0 :=
  C2_amended 4096 { size := 16, align := 8 } 3 4096 (by decide) (by decide)
    (by decide) (by decide) rfl

/-- C9: the `FreeBlockList` invariant — the stored length equals the number
of nodes reachable from `head` (the chain `l` of the representation), and
`head` is null iff the length is zero — holds for a freshly constructed
list (empty or built over a fresh region) and is preserved by `push_front`,
`push_back`, `pop_front` and `pop_back` (pushes require the pushed block
not to be on the list already, as in the source's precondition). -/
theorem C9_free_block_list_invariant :
    (∀ m : Mem, ListRep m FreeBlockList.new_empty []) ∧
    (∀ (m : Mem) (start_addr block_size num_of_blocks : Nat), 0 < block_size →
        ∃ l, ListRep (FreeBlockList.new m start_addr block_size num_of_blocks).1
               (FreeBlockList.new m start_addr block_size num_of_blocks).2 l) ∧
    (∀ (m : Mem) (s : FreeBlockList) (l : List Nat) (b : Nat), ListRep m s l → b ∉ l →
        ∃ l', ListRep (FreeBlockList.push_front m s b).1 (FreeBlockList.push_front m s b).2 l') ∧
    (∀ (m : Mem) (s : FreeBlockList) (l : List Nat) (b : Nat), ListRep m s l → b ∉ l →
        ∃ l', ListRep (FreeBlockList.push_back m s b).1 (FreeBlockList.push_back m s b).2 l') ∧
    (∀ (m : Mem) (s : FreeBlockList) (l : List Nat), ListRep m s l →
        ∃ l', ListRep (FreeBlockList.pop_front m s).2.1 (FreeBlockList.pop_front m s).2.2 l') ∧
    (∀ (m : Mem) (s : FreeBlockList) (l : List Nat), ListRep m s l →
        ∃ l', ListRep (FreeBlockList.pop_back m s).2.1 (FreeBlockList.pop_back m s).2.2 l') ∧
    (∀ (m : Mem) (s : FreeBlockList) (l : List Nat), ListRep m s l →
        s.len = l.length ∧ (s.head = none ↔ s.len = 0)) :=
  ⟨new_empty_rep,
   fun m st B n hB => ⟨_, new_rep m st B n hB⟩,
   fun _ _ _ _ hrep hb => ⟨_, push_front_rep hrep hb⟩,
   fun _ _ _ _ hrep hb => ⟨_, push_back_rep hrep hb⟩,
   fun _ _ _ hrep => ⟨_, (pop_front_rep hrep).2⟩,
   fun _ _ _ hrep => ⟨_, (pop_back_rep hrep).2⟩,
   fun _ _ _ hrep => listRep_len_head hrep⟩

/-- Witness for C9 at concrete lists and memories: a fresh 3-block list, a
push onto the empty list, and pops from a fresh list. -/
theorem C9_free_block_list_invariant_witness :
    (∃ l, ListRep (FreeBlockList.new mem0 0 64 3).1 (FreeBlockList.new mem0 0 64 3).2 l) ∧
    (∃ l', ListRep (FreeBlockList.push_front mem0 FreeBlockList.new_empty 128).1
             (FreeBlockList.push_front mem0 FreeBlockList.new_empty 128).2 l') ∧
    (∃ l', ListRep (FreeBlockList.push_back mem0 FreeBlockList.new_empty 128).1
             (FreeBlockList.push_back mem0 FreeBlockList.new_empty 128).2 l') ∧
    (∃ l', ListRep (FreeBlockList.pop_front mem0 FreeBlockList.new_empty).2.1
             (FreeBlockList.pop_front mem0 FreeBlockList.new_empty).2.2 l') ∧
    (∃ l', ListRep (FreeBlockList.pop_back mem0 FreeBlockList.new_empty).2.1
             (FreeBlockList.pop_back mem0 FreeBlockList.new_empty).2.2 l') ∧
    (FreeBlockList.new_empty.len = ([] : List Nat).length ∧
      (FreeBlockList.new_empty.head = none ↔ FreeBlockList.new_empty.len = 0)) :=
  ⟨C9_free_block_list_invariant.2.1 mem0 0 64 3 (by decide),
   C9_free_block_list_invariant.2.2.1 mem0 FreeBlockList.new_empty [] 128
     ⟨Chain.nil, Chain.nil, List.nodup_nil, rfl⟩ (by simp),
   C9_free_block_list_invariant.2.2.2.1 mem0 FreeBlockList.new_empty [] 128
     ⟨Chain.nil, Chain.nil, List.nodup_nil, rfl⟩ (by simp),
   C9_free_block_list_invariant.2.2.2.2.1 mem0 FreeBlockList.new_empty []
     ⟨Chain.nil, Chain.nil, List.nodup_nil, rfl⟩,
   C9_free_block_list_invariant.2.2.2.2.2.1 mem0 FreeBlockList.new_empty []
     ⟨Chain.nil, Chain.nil, List.nodup_nil, rfl⟩,
   C9_free_block_list_invariant.2.2.2.2.2.2 mem0 FreeBlockList.new_empty []
     ⟨Chain.nil, Chain.nil, List.nodup_nil, rfl⟩⟩

end SlabAllocator
